import Mathlib

set_option linter.unusedVariables false

/-!
Verification development for the embedded Tezos RPC client of the
tezos_exporter repository: the discriminator-based polymorphic JSON
decoders (operation elements, balance updates, test-chain status), the
leading-scalar heterogeneous array adapter, and the transport dispatch
and error classification of RPCClient.Do / handleNormalResponse.

JSON values are modelled by the inductive type Json below.  Numbers are
restricted to integers, which covers every numeric field of the decoded
structures (levels, periods, slots, changes).  Decoding a JSON value into
a Go struct follows the semantics of encoding/json: a missing field
leaves the zero value, a JSON null leaves the destination untouched, and
a type mismatch is an error.
-/

/-- A JSON value.  Object fields are kept in source order; as in
encoding/json, when a key occurs twice the later occurrence wins. -/
inductive Json where
  | null
  | bool (b : Bool)
  | num (n : Int)
  | str (s : String)
  | arr (elems : List Json)
  | obj (fields : List (String × Json))

/-- Last binding of a key in an object, mirroring how encoding/json
overwrites a field when a key is repeated. -/
def getField (fields : List (String × Json)) (name : String) : Option Json :=
  (fields.reverse.find? (fun p => p.1 == name)).map (fun p => p.2)

/-- Decode a field holding a Go string: absent or null leaves the zero
value "", a JSON string is taken verbatim, anything else is an error. -/
def fieldString (fields : List (String × Json)) (name : String) : Except String String :=
  match getField fields name with
  | none => .ok ""
  | some .null => .ok ""
  | some (.str s) => .ok s
  | some _ => .error ("json: cannot unmarshal value into string field " ++ name)

/-- Decode a field holding a Go int: absent or null leaves 0. -/
def fieldInt (fields : List (String × Json)) (name : String) : Except String Int :=
  match getField fields name with
  | none => .ok 0
  | some .null => .ok 0
  | some (.num n) => .ok n
  | some _ => .error ("json: cannot unmarshal value into int field " ++ name)

/-- Decode a field holding a Go bool pointer: absent or null leaves nil. -/
def fieldOptBool (fields : List (String × Json)) (name : String) : Except String (Option Bool) :=
  match getField fields name with
  | none => .ok none
  | some .null => .ok none
  | some (.bool b) => .ok (some b)
  | some _ => .error ("json: cannot unmarshal value into bool field " ++ name)

/-- Base-10 digit run to a natural number; none when empty or when a
non-digit occurs.  Used to model strconv and math/big integer parsing
over the textual content of a JSON string. -/
def digitsToNat : List Char → Option Nat
  | [] => none
  | cs => cs.foldl (fun acc c => match acc with
      | none => none
      | some n => if c.isDigit then some (n * 10 + (c.toNat - 48)) else none) (some 0)

/-- A base-10 integer literal with optional sign, as accepted by
strconv.ParseInt and big.Int SetString. -/
def parseIntLit (s : String) : Option Int :=
  match s.toList with
  | '-' :: cs => (digitsToNat cs).map (fun n => -(n : Int))
  | '+' :: cs => (digitsToNat cs).map (fun n => (n : Int))
  | cs => (digitsToNat cs).map (fun n => (n : Int))

/-- Decode a field holding a Go int64 carrying the ",string" option, as in
GenericBalanceUpdate.Change: the value must be a JSON string containing a
base-10 integer; absent or null leaves 0. -/
def fieldIntString (fields : List (String × Json)) (name : String) : Except String Int :=
  match getField fields name with
  | none => .ok 0
  | some .null => .ok 0
  | some (.str s) =>
    match parseIntLit s with
    | some n => .ok n
    | none => .error ("json: invalid number literal in string field " ++ name)
  | some _ => .error ("json: invalid use of string option on field " ++ name)

/-- Decode a field holding a *BigInt.  The BigInt type of the library
(not present under src/) wraps math/big.Int and unmarshals from a JSON
string holding a base-10 integer; a nil pointer stays nil on absence or
null. -/
def fieldOptBigInt (fields : List (String × Json)) (name : String) : Except String (Option Int) :=
  match getField fields name with
  | none => .ok none
  | some .null => .ok none
  | some (.str s) =>
    match parseIntLit s with
    | some n => .ok (some n)
    | none => .error ("json: invalid big integer literal in field " ++ name)
  | some _ => .error ("json: cannot unmarshal value into BigInt field " ++ name)

/-- Decode a field holding a Go map, kept as the raw object fields.
Absent or null leaves a nil map, modelled as none. -/
def fieldMap (fields : List (String × Json)) (name : String) :
    Except String (Option (List (String × Json))) :=
  match getField fields name with
  | none => .ok none
  | some .null => .ok none
  | some (.obj fs) => .ok (some fs)
  | some _ => .error ("json: cannot unmarshal value into map field " ++ name)

/-- Decode one element of a Go []string. -/
def decodeStringElem (j : Json) : Except String String :=
  match j with
  | .null => .ok ""
  | .str s => .ok s
  | _ => .error "json: cannot unmarshal value into string element"

/-- Decode one element of a Go []int. -/
def decodeIntElem (j : Json) : Except String Int :=
  match j with
  | .null => .ok 0
  | .num n => .ok n
  | _ => .error "json: cannot unmarshal value into int element"

/-- Elementwise decode of a JSON array, mirroring the order in which the
Go decoders fill a freshly allocated slice: the first failure aborts. -/
def decodeElems (f : Json → Except String α) : List Json → Except String (List α)
  | [] => .ok []
  | r :: rest =>
    match f r with
    | .error e => .error e
    | .ok v =>
      match decodeElems f rest with
      | .error e => .error e
      | .ok vs => .ok (v :: vs)

/-- Decode a field holding a Go []string; absence and null leave nil. -/
def fieldStringList (fields : List (String × Json)) (name : String) :
    Except String (List String) :=
  match getField fields name with
  | none => .ok []
  | some .null => .ok []
  | some (.arr xs) => decodeElems decodeStringElem xs
  | some _ => .error ("json: cannot unmarshal value into string slice field " ++ name)

/-- Decode a field holding a Go []int; absence and null leave nil. -/
def fieldIntList (fields : List (String × Json)) (name : String) :
    Except String (List Int) :=
  match getField fields name with
  | none => .ok []
  | some .null => .ok []
  | some (.arr xs) => decodeElems decodeIntElem xs
  | some _ => .error ("json: cannot unmarshal value into int slice field " ++ name)

/-- Hex-digit test used by the HexBytes model. -/
def isHexDigitChar (c : Char) : Bool :=
  c.isDigit || (97 ≤ c.toNat && c.toNat ≤ 102) || (65 ≤ c.toNat && c.toNat ≤ 70)

/-- HexBytes unmarshals from a string of hexadecimal digits via
encoding/hex, which demands an even number of hex digits.  The decoded
bytes are kept in their textual form. -/
def decodeHexBytes (j : Json) : Except String String :=
  match j with
  | .null => .ok ""
  | .str s =>
    if s.length % 2 == 0 && s.toList.all isHexDigitChar then .ok s
    else .error "encoding/hex: invalid byte sequence"
  | _ => .error "json: cannot unmarshal value into HexBytes"

/-- Decode a field holding HexBytes; absence and null leave nil bytes. -/
def fieldHexBytes (fields : List (String × Json)) (name : String) : Except String String :=
  match getField fields name with
  | none => .ok ""
  | some j => decodeHexBytes j

/-- Decode a field holding []HexBytes. -/
def fieldHexBytesList (fields : List (String × Json)) (name : String) :
    Except String (List String) :=
  match getField fields name with
  | none => .ok []
  | some .null => .ok []
  | some (.arr xs) => decodeElems decodeHexBytes xs
  | some _ => .error ("json: cannot unmarshal value into HexBytes slice field " ++ name)

/-- Decode a field holding a time.Time.  The standard library demands a
JSON string in RFC 3339 form; the embedding keeps the textual timestamp
and abstracts the format validation of the time package. -/
def fieldTime (fields : List (String × Json)) (name : String) : Except String String :=
  match getField fields name with
  | none => .ok ""
  | some .null => .ok ""
  | some (.str s) => .ok s
  | some _ => .error ("json: cannot unmarshal value into time field " ++ name)

/-- One structured RPC error record.  Modelled from the spec: the Errors
type and its GenericError records (kind and id strings plus further
fields) are declared in a file of this library that is not under src/;
the spec describes a record as a kind plus an id with arbitrary
additional fields. -/
structure GenericError where
  Kind : String
  ID : String
deriving Inhabited, DecidableEq

/-- Decode one error record: an object whose kind and id fields are
strings (absent fields leave empty strings). -/
def decodeErrorRecord (j : Json) : Except String GenericError :=
  match j with
  | .null => .ok default
  | .obj fs =>
    match fieldString fs "kind" with
    | .error e => .error e
    | .ok k =>
      match fieldString fs "id" with
      | .error e => .error e
      | .ok i => .ok ⟨k, i⟩
  | _ => .error "json: cannot unmarshal value into error record"

/-- Decode the Errors collection.  Modelled from the spec: the body is
parsed as either a single error object or an array of error objects
(both shapes are tolerated), and may carry zero, one, or many records. -/
def decodeErrors (j : Json) : Except String (List GenericError) :=
  match j with
  | .null => .ok []
  | .arr xs => decodeElems decodeErrorRecord xs
  | .obj fs =>
    match decodeErrorRecord (.obj fs) with
    | .error e => .error e
    | .ok r => .ok [r]
  | _ => .error "json: cannot unmarshal value into Errors"

/-!
Balance updates: src/go-tezos/operations.go lines 365-433.
-/

/-- GenericBalanceUpdate holds the common values among all
BalanceUpdatesType variants: the kind discriminator and the change
amount (an int64 carrying the ",string" option). -/
structure GenericBalanceUpdate where
  Kind : String
  Change : Int
deriving Inhabited, DecidableEq

/-- ContractBalanceUpdate is the variant for Kind=contract. -/
structure ContractBalanceUpdate where
  Generic : GenericBalanceUpdate
  Contract : String
deriving Inhabited, DecidableEq

/-- FreezerBalanceUpdate is the variant for Kind=freezer. -/
structure FreezerBalanceUpdate where
  Generic : GenericBalanceUpdate
  Category : String
  Delegate : String
  Level : Int
deriving Inhabited, DecidableEq

/-- BalanceUpdate is the interface implemented by all variants; the
generic constructor is the forward-compatible fallback. -/
inductive BalanceUpdate where
  | generic (g : GenericBalanceUpdate)
  | contract (c : ContractBalanceUpdate)
  | freezer (f : FreezerBalanceUpdate)
deriving DecidableEq

/-- BalanceUpdates is a list of balance update operations. -/
abbrev BalanceUpdates := List BalanceUpdate

/-- Unmarshal of the common fields of a balance update entry (the probe
of BalanceUpdates.UnmarshalJSON). -/
def GenericBalanceUpdate.decode (j : Json) : Except String GenericBalanceUpdate :=
  match j with
  | .null => .ok default
  | .obj fs =>
    match fieldString fs "kind" with
    | .error e => .error e
    | .ok k =>
      match fieldIntString fs "change" with
      | .error e => .error e
      | .ok c => .ok ⟨k, c⟩
  | _ => .error "json: cannot unmarshal value into GenericBalanceUpdate"

/-- Full unmarshal of the contract variant. -/
def ContractBalanceUpdate.decode (j : Json) : Except String ContractBalanceUpdate :=
  match j with
  | .null => .ok default
  | .obj fs =>
    match GenericBalanceUpdate.decode (.obj fs) with
    | .error e => .error e
    | .ok g =>
      match fieldString fs "contract" with
      | .error e => .error e
      | .ok c => .ok ⟨g, c⟩
  | _ => .error "json: cannot unmarshal value into ContractBalanceUpdate"

/-- Full unmarshal of the freezer variant. -/
def FreezerBalanceUpdate.decode (j : Json) : Except String FreezerBalanceUpdate :=
  match j with
  | .null => .ok default
  | .obj fs =>
    match GenericBalanceUpdate.decode (.obj fs) with
    | .error e => .error e
    | .ok g =>
      match fieldString fs "category" with
      | .error e => .error e
      | .ok cat =>
        match fieldString fs "delegate" with
        | .error e => .error e
        | .ok d =>
          match fieldInt fs "level" with
          | .error e => .error e
          | .ok l => .ok ⟨g, cat, d, l⟩
  | _ => .error "json: cannot unmarshal value into FreezerBalanceUpdate"

/-- The registered balance update kinds of the switch in
BalanceUpdates.UnmarshalJSON. -/
def balanceUpdateKinds : List String := ["contract", "freezer"]

/-- One iteration of the loop of BalanceUpdates.UnmarshalJSON: probe the
common fields, switch on the kind, fully decode a recognized variant,
and fall back to the probe value for an unrecognized kind. -/
def decodeBalanceUpdateElem (r : Json) : Except String BalanceUpdate :=
  match GenericBalanceUpdate.decode r with
  | .error e => .error e
  | .ok tmp =>
    match tmp.Kind with
    | "contract" =>
      match ContractBalanceUpdate.decode r with
      | .error e => .error e
      | .ok v => .ok (.contract v)
    | "freezer" =>
      match FreezerBalanceUpdate.decode r with
      | .error e => .error e
      | .ok v => .ok (.freezer v)
    | _ => .ok (.generic tmp)

/-- BalanceUpdates.UnmarshalJSON: decode the raw array, then decode each
element independently; any element failure aborts the whole decode. -/
def BalanceUpdates.UnmarshalJSON (data : Json) : Except String BalanceUpdates :=
  match data with
  | .null => .ok []
  | .arr raw => decodeElems decodeBalanceUpdateElem raw
  | _ => .error "json: cannot unmarshal value into raw message array"

/-- Decode a field holding BalanceUpdates (custom unmarshaller); absence
leaves the nil slice. -/
def fieldBalanceUpdates (fields : List (String × Json)) (name : String) :
    Except String BalanceUpdates :=
  match getField fields name with
  | none => .ok []
  | some j => BalanceUpdates.UnmarshalJSON j

/-- Decode a field holding Errors (custom unmarshaller); absence leaves
the nil slice. -/
def fieldErrors (fields : List (String × Json)) (name : String) :
    Except String (List GenericError) :=
  match getField fields name with
  | none => .ok []
  | some j => decodeErrors j

/-!
Operation elements: src/go-tezos/operations.go lines 8-363.
-/

/-- Decode a field holding a nested struct with decoder dec: an absent
field leaves the zero value of the struct. -/
def fieldStruct (fields : List (String × Json)) (name : String)
    (dec : Json → Except String α) (dflt : α) : Except String α :=
  match getField fields name with
  | none => .ok dflt
  | some j => dec j

/-- GenericOperationElem is the most generic element type: only the kind
discriminator, shared by every variant through struct embedding. -/
structure GenericOperationElem where
  Kind : String
deriving Inhabited, DecidableEq

/-- Unmarshal of the common fields of an operation element (the probe of
OperationElements.UnmarshalJSON). -/
def GenericOperationElem.decode (j : Json) : Except String GenericOperationElem :=
  match j with
  | .null => .ok default
  | .obj fs =>
    match fieldString fs "kind" with
    | .error e => .error e
    | .ok k => .ok ⟨k⟩
  | _ => .error "json: cannot unmarshal value into GenericOperationElem"

/-- EndorsementOperationMetadata. -/
structure EndorsementOperationMetadata where
  BalanceUpdates : BalanceUpdates
  Delegate : String
  Slots : List Int
deriving Inhabited

/-- Decode EndorsementOperationMetadata. -/
def EndorsementOperationMetadata.decode (j : Json) : Except String EndorsementOperationMetadata :=
  match j with
  | .null => .ok default
  | .obj fs =>
    match fieldBalanceUpdates fs "balance_updates" with
    | .error e => .error e
    | .ok bu =>
      match fieldString fs "delegate" with
      | .error e => .error e
      | .ok d =>
        match fieldIntList fs "slots" with
        | .error e => .error e
        | .ok sl => .ok ⟨bu, d, sl⟩
  | _ => .error "json: cannot unmarshal value into EndorsementOperationMetadata"

/-- EndorsementOperationElem. -/
structure EndorsementOperationElem where
  Generic : GenericOperationElem
  Level : Int
  Metadata : EndorsementOperationMetadata
deriving Inhabited

/-- Decode EndorsementOperationElem. -/
def EndorsementOperationElem.decode (j : Json) : Except String EndorsementOperationElem :=
  match j with
  | .null => .ok default
  | .obj fs =>
    match GenericOperationElem.decode (.obj fs) with
    | .error e => .error e
    | .ok g =>
      match fieldInt fs "level" with
      | .error e => .error e
      | .ok l =>
        match getField fs "metadata" with
        | none => .ok ⟨g, l, default⟩
        | some m =>
          match EndorsementOperationMetadata.decode m with
          | .error e => .error e
          | .ok md => .ok ⟨g, l, md⟩
  | _ => .error "json: cannot unmarshal value into EndorsementOperationElem"

/-- TransactionOperationResult. -/
structure TransactionOperationResult where
  Status : String
  Storage : Option (List (String × Json))
  BalanceUpdates : BalanceUpdates
  OriginatedContracts : List String
  ConsumedGas : Option Int
  StorageSize : Option Int
  PaidStorageSizeDiff : Option Int
  Errors : List GenericError

/-- The zero TransactionOperationResult. -/
instance : Inhabited TransactionOperationResult := ⟨⟨"", none, [], [], none, none, none, []⟩⟩

/-- Decode TransactionOperationResult. -/
def TransactionOperationResult.decode (j : Json) : Except String TransactionOperationResult :=
  match j with
  | .null => .ok default
  | .obj fs =>
    match fieldString fs "status" with
    | .error e => .error e
    | .ok st =>
      match fieldMap fs "storage" with
      | .error e => .error e
      | .ok sto =>
        match fieldBalanceUpdates fs "balance_updates" with
        | .error e => .error e
        | .ok bu =>
          match fieldStringList fs "originated_contracts" with
          | .error e => .error e
          | .ok oc =>
            match fieldOptBigInt fs "consumed_gas" with
            | .error e => .error e
            | .ok cg =>
              match fieldOptBigInt fs "storage_size" with
              | .error e => .error e
              | .ok ss =>
                match fieldOptBigInt fs "paid_storage_size_diff" with
                | .error e => .error e
                | .ok ps =>
                  match fieldErrors fs "errors" with
                  | .error e => .error e
                  | .ok er => .ok ⟨st, sto, bu, oc, cg, ss, ps, er⟩
  | _ => .error "json: cannot unmarshal value into TransactionOperationResult"

/-- TransactionOperationMetadata. -/
structure TransactionOperationMetadata where
  BalanceUpdates : BalanceUpdates
  OperationResult : TransactionOperationResult
deriving Inhabited

/-- Decode TransactionOperationMetadata. -/
def TransactionOperationMetadata.decode (j : Json) : Except String TransactionOperationMetadata :=
  match j with
  | .null => .ok default
  | .obj fs =>
    match fieldBalanceUpdates fs "balance_updates" with
    | .error e => .error e
    | .ok bu =>
      match getField fs "operation_result" with
      | none => .ok ⟨bu, default⟩
      | some r =>
        match TransactionOperationResult.decode r with
        | .error e => .error e
        | .ok res => .ok ⟨bu, res⟩
  | _ => .error "json: cannot unmarshal value into TransactionOperationMetadata"

/-- TransactionOperationElem. -/
structure TransactionOperationElem where
  Generic : GenericOperationElem
  Source : String
  Fee : Option Int
  Counter : Option Int
  GasLimit : Option Int
  StorageLimit : Option Int
  Amount : Option Int
  Destination : String
  Parameters : Option (List (String × Json))
  Metadata : TransactionOperationMetadata

/-- The zero TransactionOperationElem. -/
instance : Inhabited TransactionOperationElem :=
  ⟨⟨default, "", none, none, none, none, none, "", none, default⟩⟩

/-- Decode TransactionOperationElem. -/
def TransactionOperationElem.decode (j : Json) : Except String TransactionOperationElem :=
  match j with
  | .null => .ok default
  | .obj fs =>
    match GenericOperationElem.decode (.obj fs) with
    | .error e => .error e
    | .ok g =>
      match fieldString fs "source" with
      | .error e => .error e
      | .ok src =>
        match fieldOptBigInt fs "fee" with
        | .error e => .error e
        | .ok fee =>
          match fieldOptBigInt fs "counter" with
          | .error e => .error e
          | .ok cnt =>
            match fieldOptBigInt fs "gas_limit" with
            | .error e => .error e
            | .ok gl =>
              match fieldOptBigInt fs "storage_limit" with
              | .error e => .error e
              | .ok stl =>
                match fieldOptBigInt fs "amount" with
                | .error e => .error e
                | .ok am =>
                  match fieldString fs "destination" with
                  | .error e => .error e
                  | .ok dst =>
                    match fieldMap fs "parameters" with
                    | .error e => .error e
                    | .ok par =>
                      match getField fs "metadata" with
                      | none => .ok ⟨g, src, fee, cnt, gl, stl, am, dst, par, default⟩
                      | some m =>
                        match TransactionOperationMetadata.decode m with
                        | .error e => .error e
                        | .ok md => .ok ⟨g, src, fee, cnt, gl, stl, am, dst, par, md⟩
  | _ => .error "json: cannot unmarshal value into TransactionOperationElem"

/-- BallotOperationElem. -/
structure BallotOperationElem where
  Generic : GenericOperationElem
  Source : String
  Period : Int
  Proposal : String
  Ballot : String
  Metadata : Option (List (String × Json))

/-- The zero BallotOperationElem. -/
instance : Inhabited BallotOperationElem := ⟨⟨default, "", 0, "", "", none⟩⟩

/-- Decode BallotOperationElem. -/
def BallotOperationElem.decode (j : Json) : Except String BallotOperationElem :=
  match j with
  | .null => .ok default
  | .obj fs =>
    match GenericOperationElem.decode (.obj fs) with
    | .error e => .error e
    | .ok g =>
      match fieldString fs "source" with
      | .error e => .error e
      | .ok src =>
        match fieldInt fs "period" with
        | .error e => .error e
        | .ok per =>
          match fieldString fs "proposal" with
          | .error e => .error e
          | .ok prop =>
            match fieldString fs "ballot" with
            | .error e => .error e
            | .ok bal =>
              match fieldMap fs "metadata" with
              | .error e => .error e
              | .ok md => .ok ⟨g, src, per, prop, bal, md⟩
  | _ => .error "json: cannot unmarshal value into BallotOperationElem"

/-- ProposalOperationElem. -/
structure ProposalOperationElem where
  Generic : GenericOperationElem
  Source : String
  Period : Int
  Proposals : List String
  Metadata : Option (List (String × Json))

/-- The zero ProposalOperationElem. -/
instance : Inhabited ProposalOperationElem := ⟨⟨default, "", 0, [], none⟩⟩

/-- Decode ProposalOperationElem. -/
def ProposalOperationElem.decode (j : Json) : Except String ProposalOperationElem :=
  match j with
  | .null => .ok default
  | .obj fs =>
    match GenericOperationElem.decode (.obj fs) with
    | .error e => .error e
    | .ok g =>
      match fieldString fs "source" with
      | .error e => .error e
      | .ok src =>
        match fieldInt fs "period" with
        | .error e => .error e
        | .ok per =>
          match fieldStringList fs "proposals" with
          | .error e => .error e
          | .ok props =>
            match fieldMap fs "metadata" with
            | .error e => .error e
            | .ok md => .ok ⟨g, src, per, props, md⟩
  | _ => .error "json: cannot unmarshal value into ProposalOperationElem"

/-- BalanceUpdatesOperationMetadata contains balance updates only. -/
structure BalanceUpdatesOperationMetadata where
  BalanceUpdates : BalanceUpdates
deriving Inhabited

/-- Decode BalanceUpdatesOperationMetadata. -/
def BalanceUpdatesOperationMetadata.decode (j : Json) :
    Except String BalanceUpdatesOperationMetadata :=
  match j with
  | .null => .ok default
  | .obj fs =>
    match fieldBalanceUpdates fs "balance_updates" with
    | .error e => .error e
    | .ok bu => .ok ⟨bu⟩
  | _ => .error "json: cannot unmarshal value into BalanceUpdatesOperationMetadata"

/-- SeedNonceRevelationOperationElem. -/
structure SeedNonceRevelationOperationElem where
  Generic : GenericOperationElem
  Level : Int
  Nonce : String
  Metadata : BalanceUpdatesOperationMetadata
deriving Inhabited

/-- Decode SeedNonceRevelationOperationElem. -/
def SeedNonceRevelationOperationElem.decode (j : Json) :
    Except String SeedNonceRevelationOperationElem :=
  match j with
  | .null => .ok default
  | .obj fs =>
    match GenericOperationElem.decode (.obj fs) with
    | .error e => .error e
    | .ok g =>
      match fieldInt fs "level" with
      | .error e => .error e
      | .ok l =>
        match fieldString fs "nonce" with
        | .error e => .error e
        | .ok n =>
          match getField fs "metadata" with
          | none => .ok ⟨g, l, n, default⟩
          | some m =>
            match BalanceUpdatesOperationMetadata.decode m with
            | .error e => .error e
            | .ok md => .ok ⟨g, l, n, md⟩
  | _ => .error "json: cannot unmarshal value into SeedNonceRevelationOperationElem"

/-- InlinedEndorsementContents. -/
structure InlinedEndorsementContents where
  Kind : String
  Level : Int
deriving Inhabited

/-- Decode InlinedEndorsementContents; note the json tag of the Kind
field is "endorsement" in the source. -/
def InlinedEndorsementContents.decode (j : Json) : Except String InlinedEndorsementContents :=
  match j with
  | .null => .ok default
  | .obj fs =>
    match fieldString fs "endorsement" with
    | .error e => .error e
    | .ok k =>
      match fieldInt fs "level" with
      | .error e => .error e
      | .ok l => .ok ⟨k, l⟩
  | _ => .error "json: cannot unmarshal value into InlinedEndorsementContents"

/-- InlinedEndorsement. -/
structure InlinedEndorsement where
  Branch : String
  Operations : InlinedEndorsementContents
  Signature : String
deriving Inhabited

/-- Decode InlinedEndorsement. -/
def InlinedEndorsement.decode (j : Json) : Except String InlinedEndorsement :=
  match j with
  | .null => .ok default
  | .obj fs =>
    match fieldString fs "branch" with
    | .error e => .error e
    | .ok b =>
      match fieldStruct fs "operations" InlinedEndorsementContents.decode default with
      | .error e => .error e
      | .ok ops =>
        match fieldString fs "signature" with
        | .error e => .error e
        | .ok sg => .ok ⟨b, ops, sg⟩
  | _ => .error "json: cannot unmarshal value into InlinedEndorsement"

/-- DoubleEndorsementEvidenceOperationElem. -/
structure DoubleEndorsementEvidenceOperationElem where
  Generic : GenericOperationElem
  Operation1 : InlinedEndorsement
  Operation2 : InlinedEndorsement
  Metadata : BalanceUpdatesOperationMetadata
deriving Inhabited

/-- Decode DoubleEndorsementEvidenceOperationElem. -/
def DoubleEndorsementEvidenceOperationElem.decode (j : Json) :
    Except String DoubleEndorsementEvidenceOperationElem :=
  match j with
  | .null => .ok default
  | .obj fs =>
    match GenericOperationElem.decode (.obj fs) with
    | .error e => .error e
    | .ok g =>
      match fieldStruct fs "op1" InlinedEndorsement.decode default with
      | .error e => .error e
      | .ok o1 =>
        match fieldStruct fs "op2" InlinedEndorsement.decode default with
        | .error e => .error e
        | .ok o2 =>
          match fieldStruct fs "metadata" BalanceUpdatesOperationMetadata.decode default with
          | .error e => .error e
          | .ok md => .ok ⟨g, o1, o2, md⟩
  | _ => .error "json: cannot unmarshal value into DoubleEndorsementEvidenceOperationElem"

/-- RawBlockHeader, a part of the Tezos block data. -/
structure RawBlockHeader where
  Level : Int
  Proto : Int
  Predecessor : String
  Timestamp : String
  ValidationPass : Int
  OperationsHash : String
  Fitness : List String
  Context : String
  Priority : Int
  ProofOfWorkNonce : String
  SeedNonceHash : String
  Signature : String

/-- The zero RawBlockHeader. -/
instance : Inhabited RawBlockHeader := ⟨⟨0, 0, "", "", 0, "", [], "", 0, "", "", ""⟩⟩

/-- Decode RawBlockHeader. -/
def RawBlockHeader.decode (j : Json) : Except String RawBlockHeader :=
  match j with
  | .null => .ok default
  | .obj fs =>
    match fieldInt fs "level" with
    | .error e => .error e
    | .ok lv =>
      match fieldInt fs "proto" with
      | .error e => .error e
      | .ok pr =>
        match fieldString fs "predecessor" with
        | .error e => .error e
        | .ok pd =>
          match fieldTime fs "timestamp" with
          | .error e => .error e
          | .ok ts =>
            match fieldInt fs "validation_pass" with
            | .error e => .error e
            | .ok vp =>
              match fieldString fs "operations_hash" with
              | .error e => .error e
              | .ok oh =>
                match fieldHexBytesList fs "fitness" with
                | .error e => .error e
                | .ok ft =>
                  match fieldString fs "context" with
                  | .error e => .error e
                  | .ok cx =>
                    match fieldInt fs "priority" with
                    | .error e => .error e
                    | .ok pri =>
                      match fieldHexBytes fs "proof_of_work_nonce" with
                      | .error e => .error e
                      | .ok pow =>
                        match fieldString fs "seed_nonce_hash" with
                        | .error e => .error e
                        | .ok snh =>
                          match fieldString fs "signature" with
                          | .error e => .error e
                          | .ok sg => .ok ⟨lv, pr, pd, ts, vp, oh, ft, cx, pri, pow, snh, sg⟩
  | _ => .error "json: cannot unmarshal value into RawBlockHeader"

/-- DoubleBakingEvidenceOperationElem. -/
structure DoubleBakingEvidenceOperationElem where
  Generic : GenericOperationElem
  BlockHeader1 : RawBlockHeader
  BlockHeader2 : RawBlockHeader
  Metadata : BalanceUpdatesOperationMetadata
deriving Inhabited

/-- Decode DoubleBakingEvidenceOperationElem. -/
def DoubleBakingEvidenceOperationElem.decode (j : Json) :
    Except String DoubleBakingEvidenceOperationElem :=
  match j with
  | .null => .ok default
  | .obj fs =>
    match GenericOperationElem.decode (.obj fs) with
    | .error e => .error e
    | .ok g =>
      match fieldStruct fs "bh1" RawBlockHeader.decode default with
      | .error e => .error e
      | .ok b1 =>
        match fieldStruct fs "bh2" RawBlockHeader.decode default with
        | .error e => .error e
        | .ok b2 =>
          match fieldStruct fs "metadata" BalanceUpdatesOperationMetadata.decode default with
          | .error e => .error e
          | .ok md => .ok ⟨g, b1, b2, md⟩
  | _ => .error "json: cannot unmarshal value into DoubleBakingEvidenceOperationElem"

/-- ActivateAccountOperationElem. -/
structure ActivateAccountOperationElem where
  Generic : GenericOperationElem
  PKH : String
  Secret : String
  Metadata : BalanceUpdatesOperationMetadata
deriving Inhabited

/-- Decode ActivateAccountOperationElem. -/
def ActivateAccountOperationElem.decode (j : Json) :
    Except String ActivateAccountOperationElem :=
  match j with
  | .null => .ok default
  | .obj fs =>
    match GenericOperationElem.decode (.obj fs) with
    | .error e => .error e
    | .ok g =>
      match fieldString fs "pkh" with
      | .error e => .error e
      | .ok pkh =>
        match fieldString fs "secret" with
        | .error e => .error e
        | .ok sec =>
          match fieldStruct fs "metadata" BalanceUpdatesOperationMetadata.decode default with
          | .error e => .error e
          | .ok md => .ok ⟨g, pkh, sec, md⟩
  | _ => .error "json: cannot unmarshal value into ActivateAccountOperationElem"

/-- DelegationOperationResult. -/
structure DelegationOperationResult where
  Status : String
  Errors : List GenericError
deriving Inhabited

/-- Decode DelegationOperationResult. -/
def DelegationOperationResult.decode (j : Json) : Except String DelegationOperationResult :=
  match j with
  | .null => .ok default
  | .obj fs =>
    match fieldString fs "status" with
    | .error e => .error e
    | .ok st =>
      match fieldErrors fs "errors" with
      | .error e => .error e
      | .ok er => .ok ⟨st, er⟩
  | _ => .error "json: cannot unmarshal value into DelegationOperationResult"

/-- DelegationOperationMetadata (also the reveal metadata through the
RevealOperationMetadata alias of the source). -/
structure DelegationOperationMetadata where
  BalanceUpdates : BalanceUpdates
  OperationResult : DelegationOperationResult
deriving Inhabited

/-- Decode DelegationOperationMetadata. -/
def DelegationOperationMetadata.decode (j : Json) : Except String DelegationOperationMetadata :=
  match j with
  | .null => .ok default
  | .obj fs =>
    match fieldBalanceUpdates fs "balance_updates" with
    | .error e => .error e
    | .ok bu =>
      match fieldStruct fs "operation_result" DelegationOperationResult.decode default with
      | .error e => .error e
      | .ok res => .ok ⟨bu, res⟩
  | _ => .error "json: cannot unmarshal value into DelegationOperationMetadata"

/-- RevealOperationElem. -/
structure RevealOperationElem where
  Generic : GenericOperationElem
  Source : String
  Fee : Option Int
  Counter : Option Int
  GasLimit : Option Int
  StorageLimit : Option Int
  PublicKey : String
  Metadata : DelegationOperationMetadata

/-- The zero RevealOperationElem. -/
instance : Inhabited RevealOperationElem :=
  ⟨⟨default, "", none, none, none, none, "", default⟩⟩

/-- Decode RevealOperationElem. -/
def RevealOperationElem.decode (j : Json) : Except String RevealOperationElem :=
  match j with
  | .null => .ok default
  | .obj fs =>
    match GenericOperationElem.decode (.obj fs) with
    | .error e => .error e
    | .ok g =>
      match fieldString fs "source" with
      | .error e => .error e
      | .ok src =>
        match fieldOptBigInt fs "fee" with
        | .error e => .error e
        | .ok fee =>
          match fieldOptBigInt fs "counter" with
          | .error e => .error e
          | .ok cnt =>
            match fieldOptBigInt fs "gas_limit" with
            | .error e => .error e
            | .ok gl =>
              match fieldOptBigInt fs "storage_limit" with
              | .error e => .error e
              | .ok stl =>
                match fieldString fs "public_key" with
                | .error e => .error e
                | .ok pk =>
                  match fieldStruct fs "metadata" DelegationOperationMetadata.decode default with
                  | .error e => .error e
                  | .ok md => .ok ⟨g, src, fee, cnt, gl, stl, pk, md⟩
  | _ => .error "json: cannot unmarshal value into RevealOperationElem"

/-- ScriptedContracts. -/
structure ScriptedContracts where
  Code : Option (List (String × Json))
  Storage : Option (List (String × Json))

/-- The zero ScriptedContracts. -/
instance : Inhabited ScriptedContracts := ⟨⟨none, none⟩⟩

/-- Decode ScriptedContracts. -/
def ScriptedContracts.decode (j : Json) : Except String ScriptedContracts :=
  match j with
  | .null => .ok default
  | .obj fs =>
    match fieldMap fs "code" with
    | .error e => .error e
    | .ok c =>
      match fieldMap fs "storage" with
      | .error e => .error e
      | .ok s => .ok ⟨c, s⟩
  | _ => .error "json: cannot unmarshal value into ScriptedContracts"

/-- Decode a field holding a *ScriptedContracts: absence and null leave
the nil pointer. -/
def fieldOptScript (fields : List (String × Json)) (name : String) :
    Except String (Option ScriptedContracts) :=
  match getField fields name with
  | none => .ok none
  | some .null => .ok none
  | some j =>
    match ScriptedContracts.decode j with
    | .error e => .error e
    | .ok s => .ok (some s)

/-- OriginationOperationResult. -/
structure OriginationOperationResult where
  Status : String
  BalanceUpdates : BalanceUpdates
  OriginatedContracts : List String
  ConsumedGas : Option Int
  StorageSize : Option Int
  PaidStorageSizeDiff : Option Int
  Errors : List GenericError

/-- The zero OriginationOperationResult. -/
instance : Inhabited OriginationOperationResult := ⟨⟨"", [], [], none, none, none, []⟩⟩

/-- Decode OriginationOperationResult. -/
def OriginationOperationResult.decode (j : Json) : Except String OriginationOperationResult :=
  match j with
  | .null => .ok default
  | .obj fs =>
    match fieldString fs "status" with
    | .error e => .error e
    | .ok st =>
      match fieldBalanceUpdates fs "balance_updates" with
      | .error e => .error e
      | .ok bu =>
        match fieldStringList fs "originated_contracts" with
        | .error e => .error e
        | .ok oc =>
          match fieldOptBigInt fs "consumed_gas" with
          | .error e => .error e
          | .ok cg =>
            match fieldOptBigInt fs "storage_size" with
            | .error e => .error e
            | .ok ss =>
              match fieldOptBigInt fs "paid_storage_size_diff" with
              | .error e => .error e
              | .ok ps =>
                match fieldErrors fs "errors" with
                | .error e => .error e
                | .ok er => .ok ⟨st, bu, oc, cg, ss, ps, er⟩
  | _ => .error "json: cannot unmarshal value into OriginationOperationResult"

/-- OriginationOperationMetadata. -/
structure OriginationOperationMetadata where
  BalanceUpdates : BalanceUpdates
  OperationResult : OriginationOperationResult
deriving Inhabited

/-- Decode OriginationOperationMetadata. -/
def OriginationOperationMetadata.decode (j : Json) : Except String OriginationOperationMetadata :=
  match j with
  | .null => .ok default
  | .obj fs =>
    match fieldBalanceUpdates fs "balance_updates" with
    | .error e => .error e
    | .ok bu =>
      match fieldStruct fs "operation_result" OriginationOperationResult.decode default with
      | .error e => .error e
      | .ok res => .ok ⟨bu, res⟩
  | _ => .error "json: cannot unmarshal value into OriginationOperationMetadata"

/-- OriginationOperationElem. -/
structure OriginationOperationElem where
  Generic : GenericOperationElem
  Source : String
  Fee : Option Int
  Counter : Option Int
  GasLimit : Option Int
  StorageLimit : Option Int
  ManagerPubKey : String
  Balance : Option Int
  Spendable : Option Bool
  Delegatable : Option Bool
  Delegate : String
  Script : Option ScriptedContracts
  Metadata : OriginationOperationMetadata

/-- The zero OriginationOperationElem. -/
instance : Inhabited OriginationOperationElem :=
  ⟨⟨default, "", none, none, none, none, "", none, none, none, "", none, default⟩⟩

/-- Decode OriginationOperationElem. -/
def OriginationOperationElem.decode (j : Json) : Except String OriginationOperationElem :=
  match j with
  | .null => .ok default
  | .obj fs =>
    match GenericOperationElem.decode (.obj fs) with
    | .error e => .error e
    | .ok g =>
      match fieldString fs "source" with
      | .error e => .error e
      | .ok src =>
        match fieldOptBigInt fs "fee" with
        | .error e => .error e
        | .ok fee =>
          match fieldOptBigInt fs "counter" with
          | .error e => .error e
          | .ok cnt =>
            match fieldOptBigInt fs "gas_limit" with
            | .error e => .error e
            | .ok gl =>
              match fieldOptBigInt fs "storage_limit" with
              | .error e => .error e
              | .ok stl =>
                match fieldString fs "managerPubkey" with
                | .error e => .error e
                | .ok mpk =>
                  match fieldOptBigInt fs "balance" with
                  | .error e => .error e
                  | .ok bal =>
                    match fieldOptBool fs "spendable" with
                    | .error e => .error e
                    | .ok sp =>
                      match fieldOptBool fs "delegatable" with
                      | .error e => .error e
                      | .ok dl =>
                        match fieldString fs "delegate" with
                        | .error e => .error e
                        | .ok dg =>
                          match fieldOptScript fs "script" with
                          | .error e => .error e
                          | .ok scr =>
                            match fieldStruct fs "metadata" OriginationOperationMetadata.decode default with
                            | .error e => .error e
                            | .ok md =>
                              .ok ⟨g, src, fee, cnt, gl, stl, mpk, bal, sp, dl, dg, scr, md⟩
  | _ => .error "json: cannot unmarshal value into OriginationOperationElem"

/-- DelegationOperationElem. -/
structure DelegationOperationElem where
  Generic : GenericOperationElem
  Source : String
  Fee : Option Int
  Counter : Option Int
  GasLimit : Option Int
  StorageLimit : Option Int
  ManagerPubKey : String
  Balance : Option Int
  Spendable : Option Bool
  Delegatable : Option Bool
  Delegate : String
  Script : Option ScriptedContracts
  Metadata : DelegationOperationMetadata

/-- The zero DelegationOperationElem. -/
instance : Inhabited DelegationOperationElem :=
  ⟨⟨default, "", none, none, none, none, "", none, none, none, "", none, default⟩⟩

/-- Decode DelegationOperationElem. -/
def DelegationOperationElem.decode (j : Json) : Except String DelegationOperationElem :=
  match j with
  | .null => .ok default
  | .obj fs =>
    match GenericOperationElem.decode (.obj fs) with
    | .error e => .error e
    | .ok g =>
      match fieldString fs "source" with
      | .error e => .error e
      | .ok src =>
        match fieldOptBigInt fs "fee" with
        | .error e => .error e
        | .ok fee =>
          match fieldOptBigInt fs "counter" with
          | .error e => .error e
          | .ok cnt =>
            match fieldOptBigInt fs "gas_limit" with
            | .error e => .error e
            | .ok gl =>
              match fieldOptBigInt fs "storage_limit" with
              | .error e => .error e
              | .ok stl =>
                match fieldString fs "managerPubkey" with
                | .error e => .error e
                | .ok mpk =>
                  match fieldOptBigInt fs "balance" with
                  | .error e => .error e
                  | .ok bal =>
                    match fieldOptBool fs "spendable" with
                    | .error e => .error e
                    | .ok sp =>
                      match fieldOptBool fs "delegatable" with
                      | .error e => .error e
                      | .ok dl =>
                        match fieldString fs "delegate" with
                        | .error e => .error e
                        | .ok dg =>
                          match fieldOptScript fs "script" with
                          | .error e => .error e
                          | .ok scr =>
                            match fieldStruct fs "metadata" DelegationOperationMetadata.decode default with
                            | .error e => .error e
                            | .ok md =>
                              .ok ⟨g, src, fee, cnt, gl, stl, mpk, bal, sp, dl, dg, scr, md⟩
  | _ => .error "json: cannot unmarshal value into DelegationOperationElem"

/-- OperationElem: the interface implemented by all operation elements,
with the generic constructor as forward-compatible fallback. -/
inductive OperationElem where
  | generic (g : GenericOperationElem)
  | endorsement (e : EndorsementOperationElem)
  | transaction (t : TransactionOperationElem)
  | ballot (b : BallotOperationElem)
  | proposals (p : ProposalOperationElem)
  | seedNonceRevelation (s : SeedNonceRevelationOperationElem)
  | doubleEndorsementEvidence (d : DoubleEndorsementEvidenceOperationElem)
  | doubleBakingEvidence (d : DoubleBakingEvidenceOperationElem)
  | activateAccount (a : ActivateAccountOperationElem)
  | reveal (r : RevealOperationElem)
  | origination (o : OriginationOperationElem)
  | delegation (d : DelegationOperationElem)

/-- The kinds registered in the switch of
OperationElements.UnmarshalJSON, in source order. -/
def operationKinds : List String :=
  ["endorsement", "transaction", "ballot", "proposals", "seed_nonce_revelation",
   "double_endorsement_evidence", "double_baking_evidence", "activate_account",
   "reveal", "origination", "delegation"]

/-- One iteration of the loop of OperationElements.UnmarshalJSON: probe
the common fields, switch on kind, fully decode a recognized variant,
and retain only the generic probe for an unrecognized kind. -/
def decodeOperationElem (r : Json) : Except String OperationElem :=
  match GenericOperationElem.decode r with
  | .error e => .error e
  | .ok tmp =>
    match tmp.Kind with
    | "endorsement" =>
      match EndorsementOperationElem.decode r with
      | .error e => .error e
      | .ok v => .ok (.endorsement v)
    | "transaction" =>
      match TransactionOperationElem.decode r with
      | .error e => .error e
      | .ok v => .ok (.transaction v)
    | "ballot" =>
      match BallotOperationElem.decode r with
      | .error e => .error e
      | .ok v => .ok (.ballot v)
    | "proposals" =>
      match ProposalOperationElem.decode r with
      | .error e => .error e
      | .ok v => .ok (.proposals v)
    | "seed_nonce_revelation" =>
      match SeedNonceRevelationOperationElem.decode r with
      | .error e => .error e
      | .ok v => .ok (.seedNonceRevelation v)
    | "double_endorsement_evidence" =>
      match DoubleEndorsementEvidenceOperationElem.decode r with
      | .error e => .error e
      | .ok v => .ok (.doubleEndorsementEvidence v)
    | "double_baking_evidence" =>
      match DoubleBakingEvidenceOperationElem.decode r with
      | .error e => .error e
      | .ok v => .ok (.doubleBakingEvidence v)
    | "activate_account" =>
      match ActivateAccountOperationElem.decode r with
      | .error e => .error e
      | .ok v => .ok (.activateAccount v)
    | "reveal" =>
      match RevealOperationElem.decode r with
      | .error e => .error e
      | .ok v => .ok (.reveal v)
    | "origination" =>
      match OriginationOperationElem.decode r with
      | .error e => .error e
      | .ok v => .ok (.origination v)
    | "delegation" =>
      match DelegationOperationElem.decode r with
      | .error e => .error e
      | .ok v => .ok (.delegation v)
    | _ => .ok (.generic tmp)

/-- OperationElements is a slice of OperationElem. -/
abbrev OperationElements := List OperationElem

/-- OperationElements.UnmarshalJSON: decode the raw array, then decode
each element independently; any element failure aborts the whole
decode. -/
def OperationElements.UnmarshalJSON (data : Json) : Except String OperationElements :=
  match data with
  | .null => .ok []
  | .arr raw => decodeElems decodeOperationElem raw
  | _ => .error "json: cannot unmarshal value into raw message array"

/-!
Test chain status: src/unnamed/part_000 (block.go of the embedded
go-tezos package) lines 53-149.
-/

/-- GenericTestChainStatus holds the common values among all
TestChainStatus variants: the status discriminator. -/
structure GenericTestChainStatus where
  Status : String
deriving Inhabited, DecidableEq

/-- Unmarshal of the common fields of a test chain status (the probe of
unmarshalTestChainStatus). -/
def GenericTestChainStatus.decode (j : Json) : Except String GenericTestChainStatus :=
  match j with
  | .null => .ok default
  | .obj fs =>
    match fieldString fs "status" with
    | .error e => .error e
    | .ok s => .ok ⟨s⟩
  | _ => .error "json: cannot unmarshal value into GenericTestChainStatus"

/-- NotRunningTestChainStatus is the variant for Status=not_running. -/
structure NotRunningTestChainStatus where
  Generic : GenericTestChainStatus
deriving Inhabited, DecidableEq

/-- Decode NotRunningTestChainStatus. -/
def NotRunningTestChainStatus.decode (j : Json) : Except String NotRunningTestChainStatus :=
  match GenericTestChainStatus.decode j with
  | .error e => .error e
  | .ok g => .ok ⟨g⟩

/-- ForkingTestChainStatus is the variant for Status=forking. -/
structure ForkingTestChainStatus where
  Generic : GenericTestChainStatus
  Protocol : String
  Expiration : String
deriving Inhabited, DecidableEq

/-- Decode ForkingTestChainStatus. -/
def ForkingTestChainStatus.decode (j : Json) : Except String ForkingTestChainStatus :=
  match j with
  | .null => .ok default
  | .obj fs =>
    match GenericTestChainStatus.decode (.obj fs) with
    | .error e => .error e
    | .ok g =>
      match fieldString fs "protocol" with
      | .error e => .error e
      | .ok p =>
        match fieldString fs "expiration" with
        | .error e => .error e
        | .ok x => .ok ⟨g, p, x⟩
  | _ => .error "json: cannot unmarshal value into ForkingTestChainStatus"

/-- RunningTestChainStatus is the variant for Status=running. -/
structure RunningTestChainStatus where
  Generic : GenericTestChainStatus
  ChainID : String
  Genesis : String
  Protocol : String
  Expiration : String
deriving Inhabited, DecidableEq

/-- Decode RunningTestChainStatus. -/
def RunningTestChainStatus.decode (j : Json) : Except String RunningTestChainStatus :=
  match j with
  | .null => .ok default
  | .obj fs =>
    match GenericTestChainStatus.decode (.obj fs) with
    | .error e => .error e
    | .ok g =>
      match fieldString fs "chain_id" with
      | .error e => .error e
      | .ok c =>
        match fieldString fs "genesis" with
        | .error e => .error e
        | .ok gen =>
          match fieldString fs "protocol" with
          | .error e => .error e
          | .ok p =>
            match fieldString fs "expiration" with
            | .error e => .error e
            | .ok x => .ok ⟨g, c, gen, p, x⟩
  | _ => .error "json: cannot unmarshal value into RunningTestChainStatus"

/-- TestChainStatus: the variable structure selected by the Status
field.  Unlike the operation and balance update registries, the source
has no generic fallback constructor here. -/
inductive TestChainStatus where
  | notRunning (v : NotRunningTestChainStatus)
  | forking (v : ForkingTestChainStatus)
  | running (v : RunningTestChainStatus)
deriving DecidableEq

/-- The statuses registered in the switch of unmarshalTestChainStatus. -/
def testChainStatusKinds : List String := ["not_running", "forking", "running"]

/-- unmarshalTestChainStatus: probe the common fields, switch on the
status; an unrecognized status is an error, not a fallback. -/
def unmarshalTestChainStatus (data : Json) : Except String TestChainStatus :=
  match GenericTestChainStatus.decode data with
  | .error e => .error e
  | .ok tmp =>
    match tmp.Status with
    | "not_running" =>
      match NotRunningTestChainStatus.decode data with
      | .error e => .error e
      | .ok v => .ok (.notRunning v)
    | "forking" =>
      match ForkingTestChainStatus.decode data with
      | .error e => .error e
      | .ok v => .ok (.forking v)
    | "running" =>
      match RunningTestChainStatus.decode data with
      | .error e => .error e
      | .ok v => .ok (.running v)
    | s => .error ("unknown TestChainStatus.Status: " ++ s)

/-!
Leading-scalar heterogeneous array adapter:
src/go-tezos/utils.go lines 21-48.

The Go function receives variadic destination pointers and unmarshals
raw[i] into the i-th destination.  The embedding threads an explicit
state of type sigma through a list of positional decoders, each decoder
standing for one destination pointer: it reads one raw element and
updates the state.
-/

/-- The sequential positional decode loop of
unmarshalHeterogeneousJSONArray: destination i consumes raw element i;
the first failure aborts.  The third pattern is unreachable because the
caller checks the array length first. -/
def runTargets : List (Json → σ → Except String σ) → List Json → σ → Except String σ
  | [], _, s => .ok s
  | f :: fs, r :: rs, s =>
    match f r s with
    | .error e => .error e
    | .ok s2 => runTargets fs rs s2
  | _ :: _, [], _ => .error "JSON array is too short"

/-- unmarshalHeterogeneousJSONArray: decode the data as an array of raw
messages, fail if it has fewer elements than destinations, otherwise
decode each positional element into its destination; trailing elements
beyond the destinations are ignored. -/
def unmarshalHeterogeneousJSONArray (data : Json)
    (v : List (Json → σ → Except String σ)) (s : σ) : Except String σ :=
  match data with
  | .null =>
    if 0 < v.length then
      .error ("JSON array is too short, expected " ++ toString v.length ++ ", got 0")
    else .ok s
  | .arr raw =>
    if raw.length < v.length then
      .error ("JSON array is too short, expected " ++ toString v.length ++
        ", got " ++ toString raw.length)
    else runTargets v raw s
  | _ => .error "json: cannot unmarshal value into raw message array"

/-- A destination pair for the adapter as used in the spec example: a
designated scalar field plus an object whose key x holds an integer. -/
structure ScalarObjectPair where
  Scalar : String
  X : Int
deriving Inhabited, DecidableEq

/-- Destination one of the example: a string pointer receiving the
leading scalar. -/
def setScalar (j : Json) (s : ScalarObjectPair) : Except String ScalarObjectPair :=
  match j with
  | .null => .ok s
  | .str v => .ok { s with Scalar := v }
  | _ => .error "json: cannot unmarshal value into string destination"

/-- Destination two of the example: a struct pointer whose x field is an
integer. -/
def setX (j : Json) (s : ScalarObjectPair) : Except String ScalarObjectPair :=
  match j with
  | .null => .ok s
  | .obj fs =>
    match fieldInt fs "x" with
    | .error e => .error e
    | .ok n => .ok { s with X := n }
  | _ => .error "json: cannot unmarshal value into object destination"

/-!
Transport: src/go-tezos/client.go.

The HTTP and JSON standard libraries are modelled at their interfaces:

* the response body read by ioutil.ReadAll and handed to json.Unmarshal
  is a RawBody: either a well-formed JSON value or malformed bytes;
* the same body consumed through json.Decoder is a DecoderStream: the
  values successive Decode calls yield, then how the final Decode call
  terminates.  A body of n back-to-back complete JSON values yields
  those n values and then io.EOF, or io.ErrUnexpectedEOF when the
  chunked transfer omits the terminal zero-length chunk; a body
  truncated in the middle of a JSON value yields the values before the
  truncated one and then io.ErrUnexpectedEOF; a body with a malformed
  element yields the values before it and then a syntax error;
* the select between the channel send and ctx.Done() is resolved by the
  cancellation point ctxDoneAfter: the number of deliveries after which
  the context is cancelled, whereupon the cancellation case of the
  select is taken (none means the context is never cancelled).
-/

/-- How the final json.Decoder.Decode call on a response body ends. -/
inductive StreamEnding where
  | eof
  | unexpectedEOF
  | decodeFail (msg : String)
deriving DecidableEq

/-- The sequence of results the json.Decoder yields on a body. -/
structure DecoderStream where
  values : List Json
  ending : StreamEnding

/-- The body as seen by ioutil.ReadAll plus json.Unmarshal. -/
inductive RawBody where
  | json (j : Json)
  | malformed (msg : String)

/-- An HTTP response, carrying both interface views of its body. -/
structure Response where
  statusCode : Nat
  contentType : String
  bodyRaw : RawBody
  bodyStream : DecoderStream

/-- Destination argument v of RPCClient.Do: nil, a single value to
decode into (with its typed unmarshalling step), or a channel sink. -/
inductive Dest where
  | nil
  | single (dec : Json → Except String Unit)
  | sink

/-- The terminal outcome of a request, mirroring the error taxonomy:
nil return, a decode error propagated from encoding/json, a plain HTTP
error, a plainError wrapping the HTTP error with a message, an rpcError
carrying the record list, or ctx.Err() after cancellation. -/
inductive Outcome where
  | success
  | decodeErr (msg : String)
  | httpErr (status : Nat) (body : RawBody)
  | plainErr (status : Nat) (body : RawBody) (msg : String)
  | rpcErr (status : Nat) (body : RawBody) (errors : List GenericError)
  | cancelled

/-- Whether an outcome is a decode error. -/
def Outcome.isDecodeErr : Outcome → Bool
  | .decodeErr _ => true
  | _ => false

/-- The error message of the last Decode call, as returned when the
loop does not treat the ending as a normal end of stream. -/
def StreamEnding.message : StreamEnding → String
  | .eof => "EOF"
  | .unexpectedEOF => "unexpected EOF"
  | .decodeFail m => m

/-- Whether the cancellation signal has fired once delivered values have
been sent. -/
def ctxDone (ctxDoneAfter : Option Nat) (delivered : Nat) : Bool :=
  match ctxDoneAfter with
  | none => false
  | some k => k ≤ delivered

/-- The channel loop of handleNormalResponse: decode one value, break on
io.EOF or io.ErrUnexpectedEOF, return any other decode error, otherwise
race the channel send against ctx.Done() and return ctx.Err() if the
cancellation case is taken.  Returns the values delivered to the sink
and the outcome. -/
def streamLoop (ctxDoneAfter : Option Nat) (delivered : Nat) :
    List Json → StreamEnding → List Json × Outcome
  | [], ending =>
    match ending with
    | .eof => ([], .success)
    | .unexpectedEOF => ([], .success)
    | .decodeFail m => ([], .decodeErr m)
  | v :: rest, ending =>
    if ctxDone ctxDoneAfter delivered then ([], .cancelled)
    else
      let r := streamLoop ctxDoneAfter (delivered + 1) rest ending
      (v :: r.1, r.2)

/-- handleNormalResponse: a channel destination enters the streaming
loop; a single destination decodes exactly one value from the body into
v; a nil destination is never passed here by Do.  Returns the values
delivered to the sink, the number of decoder invocations on the single
destination, and the outcome. -/
def RPCClient.handleNormalResponse (ctxDoneAfter : Option Nat)
    (stream : DecoderStream) (dest : Dest) : List Json × Nat × Outcome :=
  match dest with
  | .sink =>
    let r := streamLoop ctxDoneAfter 0 stream.values stream.ending
    (r.1, 0, r.2)
  | .single dec =>
    match stream.values with
    | [] => ([], 0, .decodeErr stream.ending.message)
    | v :: _ =>
      match dec v with
      | .error e => ([], 1, .decodeErr e)
      | .ok _ => ([], 1, .success)
  | .nil => ([], 0, .success)

/-- Whether pat begins the character list s. -/
def charsStartWith : List Char → List Char → Bool
  | [], _ => true
  | _ :: _, [] => false
  | p :: ps, c :: cs => p == c && charsStartWith ps cs

/-- Whether pat occurs inside the character list s. -/
def charsContain (pat : List Char) : List Char → Bool
  | [] => charsStartWith pat []
  | c :: cs => charsStartWith pat (c :: cs) || charsContain pat cs

/-- Substring test mirroring strings.Contains. -/
def strContains (s pat : String) : Bool :=
  charsContain pat.toList s.toList

/-- The prefix of the message of a plainError produced when decoding
the RPC error body fails. -/
def errDecodingMsg (m : String) : String :=
  "tezos: error decoding RPC error: " ++ m

/-- The message of the plainError produced for an empty error list. -/
def emptyErrorMsg : String := "tezos: empty error response"

/-- The result of RPCClient.Do: the outcome together with the
observable effects the claims speak about. -/
structure DoResult where
  outcome : Outcome
  delivered : List Json
  destWrites : Nat
  errorBodyParsed : Bool
  bodyClosed : Bool

/-- RPCClient.Do: a 204 returns immediately; a 2xx dispatches on the
destination (nil returns, otherwise handleNormalResponse); any other
status reads the body and classifies the error: non-5xx or non-JSON
content type gives the bare httpError without parsing the body, a 5xx
JSON body is unmarshalled into Errors, with parse failure, an empty
record list, and a non-empty record list giving the three classified
variants.  The deferred resp.Body.Close() runs on every path. -/
def RPCClient.Do (ctxDoneAfter : Option Nat) (resp : Response) (dest : Dest) : DoResult :=
  if resp.statusCode = 204 then
    ⟨.success, [], 0, false, true⟩
  else if resp.statusCode / 100 = 2 then
    match dest with
    | .nil => ⟨.success, [], 0, false, true⟩
    | d =>
      let r := RPCClient.handleNormalResponse ctxDoneAfter resp.bodyStream d
      ⟨r.2.2, r.1, r.2.1, false, true⟩
  else if resp.statusCode / 100 ≠ 5 ∨ strContains resp.contentType "application/json" = false then
    ⟨.httpErr resp.statusCode resp.bodyRaw, [], 0, false, true⟩
  else
    match resp.bodyRaw with
    | .malformed m =>
      ⟨.plainErr resp.statusCode resp.bodyRaw (errDecodingMsg m), [], 0, true, true⟩
    | .json j =>
      match decodeErrors j with
      | .error m => ⟨.plainErr resp.statusCode resp.bodyRaw (errDecodingMsg m), [], 0, true, true⟩
      | .ok [] => ⟨.plainErr resp.statusCode resp.bodyRaw emptyErrorMsg, [], 0, true, true⟩
      | .ok errs => ⟨.rpcErr resp.statusCode resp.bodyRaw errs, [], 0, true, true⟩

/-!
Request construction: src/go-tezos/client.go lines 18-62.
-/

/-- libraryVersion of the client. -/
def libraryVersion : String := "0.0.1"

/-- The computed default user agent. -/
def defaultUserAgent : String := "go-tezos/" ++ libraryVersion

/-- mediaType sent in Content-Type and Accept. -/
def mediaType : String := "application/json"

/-- The headers added by RPCClient.NewRequest, in order: Content-Type
when a body is present, Accept, and User-Agent.  The local userAgent
with the default fallback is computed exactly as in the source, but the
Header.Add call passes c.UserAgent instead. -/
def RPCClient.NewRequestHeaders (cUserAgent : String) (hasBody : Bool) :
    List (String × String) :=
  let withBody := if hasBody then [("Content-Type", mediaType)] else []
  let userAgent := if cUserAgent == "" then defaultUserAgent else cUserAgent
  withBody ++ [("Accept", mediaType), ("User-Agent", cUserAgent)]

/-- The value of a header in a header list (first Add wins for Get). -/
def headerGet (headers : List (String × String)) (name : String) : Option String :=
  (headers.find? (fun p => p.1 == name)).map (fun p => p.2)

/-- The outcome of the streaming loop once the decoder reports the end
of the body: EOF and unexpected EOF break out with nil, any other
decode error is returned. -/
def endingOutcome : StreamEnding → Outcome
  | .eof => .success
  | .unexpectedEOF => .success
  | .decodeFail m => .decodeErr m

/-!
Helper lemmas.
-/

/-- Elementwise decoding success at an index: if the whole array decode
succeeds, each element decodes to the corresponding result entry. -/
theorem decodeElems_ok_nth {α : Type} {f : Json → Except String α} :
    ∀ {xs : List Json} {res : List α} {i : Nat} {a : Json},
      decodeElems f xs = .ok res → xs[i]? = some a →
      ∃ b, f a = .ok b ∧ res[i]? = some b := by
  intro xs
  induction xs with
  | nil =>
    intro res i a h hi
    simp at hi
  | cons x rest ih =>
    intro res i a h hi
    simp only [decodeElems] at h
    cases hfx : f x with
    | error e => rw [hfx] at h; cases h
    | ok v =>
      rw [hfx] at h
      cases hrest : decodeElems f rest with
      | error e => rw [hrest] at h; cases h
      | ok vs =>
        rw [hrest] at h
        cases h
        cases i with
        | zero =>
          simp only [List.getElem?_cons_zero, Option.some.injEq] at hi
          subst hi
          exact ⟨v, hfx, by simp⟩
        | succ n =>
          simp only [List.getElem?_cons_succ] at hi ⊢
          exact ih hrest hi

/-- Elementwise decoding success everywhere gives whole-array success. -/
theorem decodeElems_all_ok {α : Type} {f : Json → Except String α} :
    ∀ {xs : List Json}, (∀ x ∈ xs, ∃ b, f x = .ok b) →
      ∃ res, decodeElems f xs = .ok res := by
  intro xs
  induction xs with
  | nil => intro h; exact ⟨[], rfl⟩
  | cons x rest ih =>
    intro h
    obtain ⟨b, hb⟩ := h x (by simp)
    obtain ⟨res, hres⟩ := ih (fun y hy => h y (by simp [hy]))
    exact ⟨b :: res, by simp only [decodeElems, hb, hres]⟩

/-- An operation element whose probed kind is unregistered decodes to
the generic fallback carrying exactly the probe. -/
theorem decodeOperationElem_unknown {r : Json} {tmp : GenericOperationElem}
    (h : GenericOperationElem.decode r = .ok tmp)
    (hn : tmp.Kind ∉ operationKinds) :
    decodeOperationElem r = .ok (.generic tmp) := by
  simp only [decodeOperationElem, h]
  split
  all_goals first
    | rfl
    | (rename_i heq
       exact absurd (by rw [heq]; decide) hn)

/-- A balance update entry whose probed kind is unregistered decodes to
the generic fallback carrying exactly the probe. -/
theorem decodeBalanceUpdateElem_unknown {r : Json} {tmp : GenericBalanceUpdate}
    (h : GenericBalanceUpdate.decode r = .ok tmp)
    (hn : tmp.Kind ∉ balanceUpdateKinds) :
    decodeBalanceUpdateElem r = .ok (.generic tmp) := by
  simp only [decodeBalanceUpdateElem, h]
  split
  all_goals first
    | rfl
    | (rename_i heq
       exact absurd (by rw [heq]; decide) hn)

/-- The streaming loop without cancellation delivers every decoded
value and finishes with the outcome of the ending. -/
theorem streamLoop_no_cancel :
    ∀ (vs : List Json) (ending : StreamEnding) (d : Nat),
      streamLoop none d vs ending = (vs, endingOutcome ending) := by
  intro vs
  induction vs with
  | nil =>
    intro ending d
    cases ending <;> rfl
  | cons v rest ih =>
    intro ending d
    simp [streamLoop, ctxDone, ih]

/-- The streaming loop with a cancellation point inside the value
sequence delivers exactly the prefix before the point and reports
cancellation. -/
theorem streamLoop_cancel :
    ∀ (vs : List Json) (ending : StreamEnding) (k d : Nat),
      d ≤ k → k - d < vs.length →
      streamLoop (some k) d vs ending = (vs.take (k - d), .cancelled) := by
  intro vs
  induction vs with
  | nil =>
    intro ending k d hle hlt
    simp at hlt
  | cons v rest ih =>
    intro ending k d hle hlt
    by_cases hkd : k ≤ d
    · have hkd2 : k = d := Nat.le_antisymm hkd hle
      subst hkd2
      simp [streamLoop, ctxDone]
    · have hdk : d < k := Nat.lt_of_not_le hkd
      have h1 : d + 1 ≤ k := hdk
      have h2 : k - (d + 1) < rest.length := by
        simp only [List.length_cons] at hlt
        omega
      have hrw : k - d = (k - (d + 1)) + 1 := by omega
      simp only [streamLoop, ctxDone]
      rw [if_neg (by simp [hkd])]
      rw [ih ending k (d + 1) h1 h2, hrw]
      simp [List.take_succ_cons]

/-!
Claim theorems.
-/

/-- Claim C1: for every JSON array of operation elements or
balance-update entries, an element whose kind discriminator matches no
registered variant never fails to decode: its own decode yields the
generic fallback holding exactly the probed common fields, the whole
collection decode places that fallback at the element position, and a
collection all of whose elements have unregistered kinds decodes
successfully. -/
theorem C1_unknown_kind_fallback :
    (∀ (r : Json) (tmp : GenericOperationElem),
       GenericOperationElem.decode r = .ok tmp → tmp.Kind ∉ operationKinds →
       decodeOperationElem r = .ok (.generic tmp))
    ∧ (∀ (xs : List Json) (res : OperationElements) (i : Nat) (r : Json)
         (tmp : GenericOperationElem),
       OperationElements.UnmarshalJSON (.arr xs) = .ok res → xs[i]? = some r →
       GenericOperationElem.decode r = .ok tmp → tmp.Kind ∉ operationKinds →
       res[i]? = some (.generic tmp))
    ∧ (∀ (xs : List Json),
       (∀ r ∈ xs, ∃ tmp, GenericOperationElem.decode r = .ok tmp ∧
          tmp.Kind ∉ operationKinds) →
       ∃ res, OperationElements.UnmarshalJSON (.arr xs) = .ok res)
    ∧ (∀ (r : Json) (tmp : GenericBalanceUpdate),
       GenericBalanceUpdate.decode r = .ok tmp → tmp.Kind ∉ balanceUpdateKinds →
       decodeBalanceUpdateElem r = .ok (.generic tmp))
    ∧ (∀ (xs : List Json) (res : BalanceUpdates) (i : Nat) (r : Json)
         (tmp : GenericBalanceUpdate),
       BalanceUpdates.UnmarshalJSON (.arr xs) = .ok res → xs[i]? = some r →
       GenericBalanceUpdate.decode r = .ok tmp → tmp.Kind ∉ balanceUpdateKinds →
       res[i]? = some (.generic tmp))
    ∧ (∀ (xs : List Json),
       (∀ r ∈ xs, ∃ tmp, GenericBalanceUpdate.decode r = .ok tmp ∧
          tmp.Kind ∉ balanceUpdateKinds) →
       ∃ res, BalanceUpdates.UnmarshalJSON (.arr xs) = .ok res) := by
  refine ⟨?_, ?_, ?_, ?_, ?_, ?_⟩
  · intro r tmp h hn
    exact decodeOperationElem_unknown h hn
  · intro xs res i r tmp hu hi h hn
    simp only [OperationElements.UnmarshalJSON] at hu
    obtain ⟨b, hb, hres⟩ := decodeElems_ok_nth hu hi
    rw [decodeOperationElem_unknown h hn] at hb
    cases hb
    exact hres
  · intro xs hall
    simp only [OperationElements.UnmarshalJSON]
    exact decodeElems_all_ok (fun x hx => by
      obtain ⟨tmp, h, hn⟩ := hall x hx
      exact ⟨.generic tmp, decodeOperationElem_unknown h hn⟩)
  · intro r tmp h hn
    exact decodeBalanceUpdateElem_unknown h hn
  · intro xs res i r tmp hu hi h hn
    simp only [BalanceUpdates.UnmarshalJSON] at hu
    obtain ⟨b, hb, hres⟩ := decodeElems_ok_nth hu hi
    rw [decodeBalanceUpdateElem_unknown h hn] at hb
    cases hb
    exact hres
  · intro xs hall
    simp only [BalanceUpdates.UnmarshalJSON]
    exact decodeElems_all_ok (fun x hx => by
      obtain ⟨tmp, h, hn⟩ := hall x hx
      exact ⟨.generic tmp, decodeBalanceUpdateElem_unknown h hn⟩)

/-- Witness for C1 at concrete unregistered kinds. -/
theorem C1_witness :
    decodeOperationElem (.obj [("kind", .str "endorsement_with_slot")]) =
      .ok (.generic ⟨"endorsement_with_slot"⟩)
    ∧ decodeBalanceUpdateElem (.obj [("kind", .str "minted"), ("change", .str "-100")]) =
      .ok (.generic ⟨"minted", -100⟩) :=
  ⟨C1_unknown_kind_fallback.1 _ ⟨"endorsement_with_slot"⟩ rfl (by decide),
   C1_unknown_kind_fallback.2.2.2.1 _ ⟨"minted", -100⟩ rfl (by decide)⟩

/-- Claim C2 counterexample: a test-chain-status object whose status
string matches no registered variant makes unmarshalTestChainStatus
fail with an unknown-status error, not succeed with a generic
fallback. -/
theorem C2_counterexample :
    unmarshalTestChainStatus (.obj [("status", .str "paused")]) =
      .error "unknown TestChainStatus.Status: paused" := rfl

/-- Claim C2 amended: for every test-chain-status JSON value whose
probed status is none of not_running, forking, running, the decode
fails with the unknown-status error naming the status; the generic
fallback rule of the other registries does not apply here. -/
theorem C2_unknown_status_errors :
    ∀ (j : Json) (tmp : GenericTestChainStatus),
      GenericTestChainStatus.decode j = .ok tmp →
      tmp.Status ∉ testChainStatusKinds →
      unmarshalTestChainStatus j =
        .error ("unknown TestChainStatus.Status: " ++ tmp.Status) := by
  intro j tmp h hn
  simp only [unmarshalTestChainStatus, h]
  split
  all_goals first
    | rfl
    | (rename_i heq
       exact absurd (by rw [heq]; decide) hn)

/-- Witness for C2 at a concrete unregistered status. -/
theorem C2_witness :
    unmarshalTestChainStatus (.obj [("status", .str "halted")]) =
      .error ("unknown TestChainStatus.Status: " ++ "halted") :=
  C2_unknown_status_errors _ ⟨"halted"⟩ rfl (by decide)

/-- Claim C3: a streaming (sink-destination) body of back-to-back
complete JSON values delivers exactly those values to the sink in body
order and then terminates with success, both when the decoder ends with
a clean EOF and when it ends with the unexpected EOF produced by a
missing terminal empty chunk right after the final closing brace; the
same holds through RPCClient.Do for a 200 response. -/
theorem C3_stream_delivery :
    (∀ (vs : List Json) (ending : StreamEnding),
       ending = .eof ∨ ending = .unexpectedEOF →
       RPCClient.handleNormalResponse none ⟨vs, ending⟩ .sink = (vs, 0, .success))
    ∧ (∀ (resp : Response),
       resp.statusCode = 200 →
       resp.bodyStream.ending = .eof ∨ resp.bodyStream.ending = .unexpectedEOF →
       RPCClient.Do none resp .sink =
         ⟨.success, resp.bodyStream.values, 0, false, true⟩) := by
  constructor
  · intro vs ending hend
    simp only [RPCClient.handleNormalResponse, streamLoop_no_cancel]
    rcases hend with h | h <;> rw [h] <;> rfl
  · intro resp h200 hend
    have hn : ¬ resp.statusCode = 204 := by omega
    have h2 : resp.statusCode / 100 = 2 := by omega
    simp only [RPCClient.Do, hn, h2, if_false, if_true, ite_true, ite_false, reduceIte]
    simp only [RPCClient.handleNormalResponse, streamLoop_no_cancel]
    rcases hend with h | h <;> rw [h] <;> rfl

/-- Witness for C3: three back-to-back objects with the body ending
right after the third closing brace (unexpected EOF). -/
theorem C3_witness :
    RPCClient.handleNormalResponse none
      ⟨[.obj [("a", .num 1)], .obj [], .obj [("b", .str "x")]], .unexpectedEOF⟩ .sink =
      ([.obj [("a", .num 1)], .obj [], .obj [("b", .str "x")]], 0, .success) :=
  C3_stream_delivery.1 _ _ (Or.inr rfl)

/-- Claim C4 counterexample: a streaming body truncated in the middle
of its second JSON value surfaces io.ErrUnexpectedEOF after the first
value, which the loop swallows: the stream terminates as a clean end of
stream with the first value delivered, not with a decode error. -/
theorem C4_counterexample :
    RPCClient.handleNormalResponse none
      ⟨[.obj [("x", .num 1)]], .unexpectedEOF⟩ .sink =
      ([.obj [("x", .num 1)]], 0, .success)
    ∧ Outcome.isDecodeErr .success = false := ⟨rfl, rfl⟩

/-- Claim C4 amended: a streaming body truncated mid-value ends with
io.ErrUnexpectedEOF, which the loop treats exactly like a clean end of
stream (success, all previously decoded values delivered); only a
malformed element, surfacing a syntax error from the decoder, makes the
streaming decode terminate with that decode error. -/
theorem C4_truncation_tolerated :
    (∀ (vs : List Json),
       RPCClient.handleNormalResponse none ⟨vs, .unexpectedEOF⟩ .sink =
         (vs, 0, .success))
    ∧ (∀ (vs : List Json) (m : String),
       RPCClient.handleNormalResponse none ⟨vs, .decodeFail m⟩ .sink =
         (vs, 0, .decodeErr m)) := by
  constructor
  · intro vs
    simp only [RPCClient.handleNormalResponse, streamLoop_no_cancel]
    rfl
  · intro vs m
    simp only [RPCClient.handleNormalResponse, streamLoop_no_cancel]
    rfl

/-- Claim C5: for a 5xx response with JSON content type whose body
parses as Errors, zero records give the empty-error plainError variant,
whose message differs from every decode-failure message, and one or
more records give the rpcError carrying the whole record list. -/
theorem C5_rpc_error_classification :
    ∀ (c : Option Nat) (resp : Response) (dest : Dest) (j : Json)
      (recs : List GenericError),
      resp.statusCode / 100 = 5 →
      strContains resp.contentType "application/json" = true →
      resp.bodyRaw = .json j →
      decodeErrors j = .ok recs →
      ((recs = [] → RPCClient.Do c resp dest =
          ⟨.plainErr resp.statusCode resp.bodyRaw emptyErrorMsg, [], 0, true, true⟩)
       ∧ (recs ≠ [] → RPCClient.Do c resp dest =
          ⟨.rpcErr resp.statusCode resp.bodyRaw recs, [], 0, true, true⟩)
       ∧ (∀ m, emptyErrorMsg ≠ errDecodingMsg m)) := by
  intro c resp dest j recs h5 hct hbody hdec
  have hn204 : ¬ resp.statusCode = 204 := by omega
  have hn2 : ¬ resp.statusCode / 100 = 2 := by omega
  have hcls : ¬ (resp.statusCode / 100 ≠ 5 ∨
      strContains resp.contentType "application/json" = false) := by
    simp [h5, hct]
  refine ⟨?_, ?_, ?_⟩
  · intro hnil
    subst hnil
    simp only [RPCClient.Do, hn204, hn2, hcls, if_false, hbody, hdec]
  · intro hne
    cases recs with
    | nil => exact absurd rfl hne
    | cons r rs =>
      simp only [RPCClient.Do, hn204, hn2, hcls, if_false, hbody, hdec]
  · intro m heq
    have hlen := congrArg String.length heq
    have h1 : ("tezos: empty error response").length = 27 := rfl
    have h2 : ("tezos: error decoding RPC error: ").length = 33 := rfl
    simp only [emptyErrorMsg, errDecodingMsg, String.length_append, h1, h2] at hlen
    omega

/-- Witness for C5: a 500 JSON response with a single error object
gives the rpcError with that one record, and one with an empty array
body gives the empty-error plainError. -/
theorem C5_witness :
    RPCClient.Do none
      ⟨500, "application/json",
       .json (.obj [("kind", .str "permanent"), ("id", .str "foo.bar")]),
       ⟨[], .eof⟩⟩ Dest.nil =
      ⟨.rpcErr 500 (.json (.obj [("kind", .str "permanent"), ("id", .str "foo.bar")]))
        [⟨"permanent", "foo.bar"⟩], [], 0, true, true⟩
    ∧ RPCClient.Do none ⟨500, "application/json", .json (.arr []), ⟨[], .eof⟩⟩ Dest.nil =
      ⟨.plainErr 500 (.json (.arr [])) emptyErrorMsg, [], 0, true, true⟩ :=
  ⟨(C5_rpc_error_classification none
      ⟨500, "application/json",
       .json (.obj [("kind", .str "permanent"), ("id", .str "foo.bar")]),
       ⟨[], .eof⟩⟩ Dest.nil
      (.obj [("kind", .str "permanent"), ("id", .str "foo.bar")])
      [⟨"permanent", "foo.bar"⟩] rfl rfl rfl rfl).2.1 (by decide),
   (C5_rpc_error_classification none
      ⟨500, "application/json", .json (.arr []), ⟨[], .eof⟩⟩ Dest.nil
      (.arr []) [] rfl rfl rfl rfl).1 rfl⟩

/-- Claim C6: for every non-2xx, non-204 response whose status class is
not 5 or whose content type is not JSON, Do produces the plain
httpError carrying the status code and the raw body, without attempting
to parse the body as JSON (errorBodyParsed stays false, and the result
is the same even when the body bytes are malformed JSON). -/
theorem C6_plain_http_error :
    ∀ (c : Option Nat) (resp : Response) (dest : Dest),
      resp.statusCode ≠ 204 →
      resp.statusCode / 100 ≠ 2 →
      (resp.statusCode / 100 ≠ 5 ∨
        strContains resp.contentType "application/json" = false) →
      RPCClient.Do c resp dest =
        ⟨.httpErr resp.statusCode resp.bodyRaw, [], 0, false, true⟩ := by
  intro c resp dest h204 h2 hcls
  simp only [RPCClient.Do, h204, h2, hcls, if_false, if_true, ite_false, reduceIte]

/-- Witness for C6: a 404 with a plain-text body (malformed as JSON)
classifies as the plain httpError regardless of content. -/
theorem C6_witness :
    RPCClient.Do none ⟨404, "text/plain", .malformed "not found", ⟨[], .eof⟩⟩ Dest.nil =
      ⟨.httpErr 404 (.malformed "not found"), [], 0, false, true⟩ :=
  C6_plain_http_error none ⟨404, "text/plain", .malformed "not found", ⟨[], .eof⟩⟩
    Dest.nil (by decide) (by decide) (Or.inl (by decide))

/-- Claim C8: a 204 response is a terminal success for every
destination type and cancellation state: no decoder invocation, no
delivery, no destination write, no error-body parse. -/
theorem C8_no_content :
    ∀ (c : Option Nat) (resp : Response) (dest : Dest),
      resp.statusCode = 204 →
      RPCClient.Do c resp dest = ⟨.success, [], 0, false, true⟩ := by
  intro c resp dest h
  simp only [RPCClient.Do, h, if_true, reduceIte]

/-- Witness for C8 on a sink destination whose stream would have
carried a value: the loop is never entered. -/
theorem C8_witness :
    RPCClient.Do none ⟨204, "application/json", .json .null,
      ⟨[.obj [("ignored", .bool true)]], .eof⟩⟩ Dest.sink =
      ⟨.success, [], 0, false, true⟩ :=
  C8_no_content none _ Dest.sink rfl

/-- Claim C9: when the cancellation signal fires after k of the
streamed values have been delivered and further values remain, the loop
delivers exactly the k-value prefix and reports the cancellation
outcome; Do closes the response body on every path, and the
cancellation outcome is distinct from every decode, HTTP, plain and RPC
error outcome. -/
theorem C9_cancellation :
    (∀ (vs : List Json) (ending : StreamEnding) (k : Nat),
       k < vs.length →
       RPCClient.handleNormalResponse (some k) ⟨vs, ending⟩ .sink =
         (vs.take k, 0, .cancelled))
    ∧ (∀ (resp : Response) (k : Nat),
       resp.statusCode = 200 → k < resp.bodyStream.values.length →
       RPCClient.Do (some k) resp .sink =
         ⟨.cancelled, resp.bodyStream.values.take k, 0, false, true⟩)
    ∧ (∀ (c : Option Nat) (resp : Response) (dest : Dest),
       (RPCClient.Do c resp dest).bodyClosed = true)
    ∧ (∀ m, Outcome.cancelled ≠ .decodeErr m)
    ∧ (∀ st b, Outcome.cancelled ≠ .httpErr st b)
    ∧ (∀ st b m, Outcome.cancelled ≠ .plainErr st b m)
    ∧ (∀ st b es, Outcome.cancelled ≠ .rpcErr st b es) := by
  refine ⟨?_, ?_, ?_, ?_, ?_, ?_, ?_⟩
  · intro vs ending k hk
    simp only [RPCClient.handleNormalResponse]
    rw [streamLoop_cancel vs ending k 0 (Nat.zero_le k) (by simpa using hk)]
    simp
  · intro resp k h200 hk
    have hn : ¬ resp.statusCode = 204 := by omega
    have h2 : resp.statusCode / 100 = 2 := by omega
    simp only [RPCClient.Do, hn, h2, if_false, if_true, ite_true, ite_false, reduceIte]
    simp only [RPCClient.handleNormalResponse]
    rw [streamLoop_cancel resp.bodyStream.values resp.bodyStream.ending k 0
      (Nat.zero_le k) (by simpa using hk)]
    simp
  · intro c resp dest
    unfold RPCClient.Do
    repeat' split
    all_goals rfl
  · intro m h; cases h
  · intro st b h; cases h
  · intro st b m h; cases h
  · intro st b es h; cases h

/-- Witness for C9: cancelling after the first of three values. -/
theorem C9_witness :
    RPCClient.handleNormalResponse (some 1)
      ⟨[.obj [("a", .num 1)], .obj [("b", .num 2)], .obj [("c", .num 3)]], .eof⟩ .sink =
      ([.obj [("a", .num 1)]], 0, .cancelled) :=
  C9_cancellation.1 _ .eof 1 (by decide)

/-- Claim C10: NewRequest sets the User-Agent header to the UserAgent
field of the client verbatim: an empty field yields an empty header
value, and the computed default identifier go-tezos/0.0.1 is never
applied even though the source computes it. -/
theorem C10_user_agent_verbatim :
    (∀ (ua : String) (hasBody : Bool),
       headerGet (RPCClient.NewRequestHeaders ua hasBody) "User-Agent" = some ua)
    ∧ (∀ (hasBody : Bool),
       headerGet (RPCClient.NewRequestHeaders "" hasBody) "User-Agent" = some "")
    ∧ defaultUserAgent = "go-tezos/0.0.1"
    ∧ (∀ (hasBody : Bool),
       headerGet (RPCClient.NewRequestHeaders "" hasBody) "User-Agent" ≠
         some defaultUserAgent) := by
  refine ⟨?_, ?_, ?_, ?_⟩
  · intro ua hasBody
    cases hasBody <;> rfl
  · intro hasBody
    cases hasBody <;> rfl
  · rfl
  · intro hasBody h
    cases hasBody <;> simp only [RPCClient.NewRequestHeaders, headerGet] at h <;>
      exact absurd (Option.some.inj h) (by decide)

/-- The positional loop only consumes as many raw elements as there are
destinations: trailing elements are ignored. -/
theorem runTargets_append_extra {σ : Type} :
    ∀ (v : List (Json → σ → Except String σ)) (xs extra : List Json) (s : σ),
      v.length = xs.length →
      runTargets v (xs ++ extra) s = runTargets v xs s := by
  intro v
  induction v with
  | nil => intro xs extra s h; rfl
  | cons f fs ih =>
    intro xs extra s h
    cases xs with
    | nil => simp at h
    | cons x rest =>
      simp only [List.cons_append, runTargets]
      cases f x s with
      | error e => rfl
      | ok s2 => exact ih rest extra s2 (by simpa using h)

/-- A failing destination at any position aborts the positional loop
with that error, given that the earlier positions succeeded. -/
theorem runTargets_position_error {σ : Type} :
    ∀ (v1 : List (Json → σ → Except String σ)) (xs1 : List Json)
      (f : Json → σ → Except String σ) (v2 : List (Json → σ → Except String σ))
      (a : Json) (xs2 : List Json) (s s1 : σ) (e : String),
      v1.length = xs1.length →
      runTargets v1 xs1 s = .ok s1 →
      f a s1 = .error e →
      runTargets (v1 ++ f :: v2) (xs1 ++ a :: xs2) s = .error e := by
  intro v1
  induction v1 with
  | nil =>
    intro xs1 f v2 a xs2 s s1 e hlen hrun hf
    cases xs1 with
    | nil =>
      simp only [runTargets] at hrun
      cases hrun
      simp only [List.nil_append, runTargets, hf]
    | cons x rest => simp at hlen
  | cons g gs ih =>
    intro xs1 f v2 a xs2 s s1 e hlen hrun hf
    cases xs1 with
    | nil => simp at hlen
    | cons x rest =>
      simp only [runTargets] at hrun
      simp only [List.cons_append, runTargets]
      cases hg : g x s with
      | error e2 => rw [hg] at hrun; cases hrun
      | ok s2 =>
        rw [hg] at hrun
        exact ih rest f v2 a xs2 s2 s1 e (by simpa using hlen) hrun hf

/-- Claim C7: the leading-scalar array adapter fails with the too-short
decode error when the array has fewer elements than destinations;
with enough elements each positional element decodes independently into
its destination, trailing elements are ignored and a failure at any
position aborts with that error; on the concrete pair, abc lands in the
scalar field and 1 in x, and a one-element array with two destinations
fails. -/
theorem C7_array_adapter :
    (∀ (σ : Type) (v : List (Json → σ → Except String σ)) (s : σ) (xs : List Json),
       xs.length < v.length →
       unmarshalHeterogeneousJSONArray (.arr xs) v s =
         .error ("JSON array is too short, expected " ++ toString v.length ++
           ", got " ++ toString xs.length))
    ∧ (∀ (σ : Type) (v : List (Json → σ → Except String σ)) (s : σ)
         (xs extra : List Json),
       v.length = xs.length →
       unmarshalHeterogeneousJSONArray (.arr (xs ++ extra)) v s =
         unmarshalHeterogeneousJSONArray (.arr xs) v s)
    ∧ (∀ (σ : Type) (v1 v2 : List (Json → σ → Except String σ))
         (f : Json → σ → Except String σ) (xs1 xs2 : List Json) (a : Json)
         (s s1 : σ) (e : String),
       v1.length = xs1.length → v2.length ≤ xs2.length →
       runTargets v1 xs1 s = .ok s1 → f a s1 = .error e →
       unmarshalHeterogeneousJSONArray (.arr (xs1 ++ a :: xs2)) (v1 ++ f :: v2) s =
         .error e)
    ∧ unmarshalHeterogeneousJSONArray (.arr [.str "abc", .obj [("x", .num 1)]])
        [setScalar, setX] (default : ScalarObjectPair) = .ok ⟨"abc", 1⟩
    ∧ unmarshalHeterogeneousJSONArray (.arr [.str "abc"])
        [setScalar, setX] (default : ScalarObjectPair) =
        .error "JSON array is too short, expected 2, got 1" := by
  refine ⟨?_, ?_, ?_, rfl, rfl⟩
  · intro σ v s xs h
    simp only [unmarshalHeterogeneousJSONArray, h, if_true, reduceIte]
  · intro σ v s xs extra hlen
    have h1 : ¬ (xs ++ extra).length < v.length := by
      simp [List.length_append]
      omega
    have h2 : ¬ xs.length < v.length := by omega
    simp only [unmarshalHeterogeneousJSONArray, h1, h2, if_false, reduceIte]
    exact runTargets_append_extra v xs extra s hlen
  · intro σ v1 v2 f xs1 xs2 a s s1 e hlen hle hrun hf
    have h1 : ¬ (xs1 ++ a :: xs2).length < (v1 ++ f :: v2).length := by
      simp [List.length_append]
      omega
    simp only [unmarshalHeterogeneousJSONArray, h1, if_false, reduceIte]
    exact runTargets_position_error v1 xs1 f v2 a xs2 s s1 e hlen hrun hf

/-- Witness for C7: the concrete two-element decode plus a mid-position
failure, where the second destination rejects a bare string. -/
theorem C7_witness :
    unmarshalHeterogeneousJSONArray (.arr [.str "abc", .str "oops"])
      [setScalar, setX] (default : ScalarObjectPair) =
      .error "json: cannot unmarshal value into object destination" :=
  C7_array_adapter.2.2.1 ScalarObjectPair [setScalar] [] setX [.str "abc"] []
    (.str "oops") default ⟨"abc", 0⟩ _ rfl (by decide) rfl rfl
